import Mathlib

/-!
Shallow embedding of the CleanQ descriptor-queue library (C sources under
src/cleanq) and proofs about the behaviour its specification claims.

The embedding follows the C sources function by function:

  * src/cleanq/backends/ff/ffq_impl.h       — FFQ SPSC channel (slot sentinel ring)
  * src/cleanq/backends/ff/ff_queue.c       — FF backend (enqueue/dequeue, inline commands)
  * src/cleanq/backends/ipc/ipc_queue.c     — IPC backend (sequence-numbered ring)
  * src/cleanq/region_pool.c                — region pool
  * src/cleanq/queue_interface.c            — frontend (bounds-checked enqueue)
  * src/cleanq/backends/loopback/loopback_queue.c — loopback ring
  * src/cleanq/backends/debug/debug_queue.c — ownership-tracking debug wrapper

Machine integers are modelled as `Nat` with explicit reduction modulo `2^64`
(or `2^16`, `2^32`) at the points where the C code computes in `uint64_t`
(`uint16_t`, `uint32_t`).  Doubly linked lists are modelled as Lean lists;
pointer surgery becomes index-based list surgery, and deviations of the C
pointer code from clean list surgery are noted at the definition concerned.
Memory allocation (slab / calloc) is assumed to succeed, as the C code
asserts it does.
-/

set_option autoImplicit false

namespace CleanQ

/-- The `errval_t` enumeration of include/cleanq.h. -/
inductive Errval where
  | OK
  | INIT_QUEUE
  | BUFFER_ID
  | BUFFER_NOT_IN_REGION
  | BUFFER_ALREADY_IN_USE
  | INVALID_BUFFER_ARGS
  | INVALID_REGION_ID
  | REGION_DESTROY
  | INVALID_REGION_ARGS
  | QUEUE_EMPTY
  | QUEUE_FULL
  | BUFFER_NOT_IN_USE
  | MALLOC_FAIL
deriving DecidableEq, Repr

/-- `2^64`, the modulus of `uint64_t` arithmetic. -/
def W64 : Nat := 18446744073709551616

/-- Wrapping `uint64_t` addition. -/
def wadd (a b : Nat) : Nat := (a + b) % W64

/-- Wrapping `uint64_t` subtraction (`a - b` computed in `uint64_t`),
for `a b < 2^64`. -/
def wsub (a b : Nat) : Nat := (a + (W64 - b % W64)) % W64

/-- `struct capref` of include/cleanq.h: `{vaddr, paddr, len}`
(the virtual address is kept as a number). -/
structure Capref where
  vaddr : Nat
  paddr : Nat
  len : Nat
deriving DecidableEq, Repr

/-- `struct cleanq_buf`: the descriptor handed to and from `dequeue`. -/
structure CleanqBuf where
  rid : Nat
  offset : Nat
  length : Nat
  valid_data : Nat
  valid_length : Nat
  flags : Nat
deriving DecidableEq, Repr

/-- An all-zero buffer, standing for the uninitialised out-parameters the C
code leaves untouched on a failed dequeue. -/
def cleanqBufZero : CleanqBuf :=
  { rid := 0, offset := 0, length := 0, valid_data := 0, valid_length := 0, flags := 0 }

/-
================================================================================
FFQ channel (src/cleanq/backends/ff/ffq_impl.h)
================================================================================
-/

/-- `FFQ_SLOT_EMPTY = (ffq_payload_t)-1`. -/
def FFQ_SLOT_EMPTY : Nat := W64 - 1

/-- `FFQ_MSG_WORDS`: 8 payload words of 8 bytes in a 64-byte slot. -/
def FFQ_MSG_WORDS : Nat := 8

/-- `struct ffq_chan`: slot array, slot count and private position.  A slot is
its list of 8 payload words.  (The `direction` field only feeds asserts and is
omitted.) -/
structure FfqChan where
  slots : List (List Nat)
  size : Nat
  pos : Nat
deriving DecidableEq, Repr

/-- Word `w` of slot `i` (`q->slots[i].data[w]`). -/
def ffq_slot_word (q : FfqChan) (i w : Nat) : Nat := (q.slots.getD i []).getD w 0

/-- Store value `v` into word `w` of slot `i` (a `uint64_t` store). -/
def ffq_set_word (q : FfqChan) (i w v : Nat) : FfqChan :=
  { q with slots := q.slots.set i ((q.slots.getD i []).set w (v % W64)) }

/-- `ffq_impl_init_tx` / `ffq_impl_init_rx` (they differ only in the direction
tag): take over the buffer, set `pos = 0`, and if `init` write the empty
sentinel into word 0 of every slot. -/
def ffq_impl_init (buf : List (List Nat)) (slots : Nat) (init : Bool) : FfqChan :=
  let base : FfqChan := { slots := buf, size := slots, pos := 0 }
  if init then
    (List.range slots).foldl (fun q i => ffq_set_word q i 0 FFQ_SLOT_EMPTY) base
  else base

/-- `ffq_impl_can_send`: word 0 of the slot at `pos` holds the empty sentinel. -/
def ffq_impl_can_send (q : FfqChan) : Bool :=
  ffq_slot_word q q.pos 0 == FFQ_SLOT_EMPTY

/-- `ffq_impl_can_recv`: word 0 of the slot at `pos` is not the empty sentinel. -/
def ffq_impl_can_recv (q : FfqChan) : Bool :=
  ffq_slot_word q q.pos 0 != FFQ_SLOT_EMPTY

/-- `ffq_impl_send`: if the slot at `pos` is free, write payload words 1..5,
publish by writing word 0, then execute the position update
`q->pos = q->pos % q->size` exactly as written in the source (note: the
source does not increment `pos` before taking the modulus). -/
def ffq_impl_send (q : FfqChan) (arg1 arg2 arg3 arg4 arg5 arg6 : Nat) :
    Bool × FfqChan :=
  if ¬ ffq_impl_can_send q then (false, q)
  else
    let q := ffq_set_word q q.pos 1 arg2
    let q := ffq_set_word q q.pos 2 arg3
    let q := ffq_set_word q q.pos 3 arg4
    let q := ffq_set_word q q.pos 4 arg5
    let q := ffq_set_word q q.pos 5 arg6
    let q := ffq_set_word q q.pos 0 arg1
    (true, { q with pos := q.pos % q.size })

/-- `ffq_impl_recv`: if the slot at `pos` holds a message, copy words 0..5
out, release the slot by writing the empty sentinel into word 0, then execute
`q->pos = q->pos % q->size` exactly as written in the source. -/
def ffq_impl_recv (q : FfqChan) :
    Option (Nat × Nat × Nat × Nat × Nat × Nat) × FfqChan :=
  if ¬ ffq_impl_can_recv q then (none, q)
  else
    let a1 := ffq_slot_word q q.pos 0
    let a2 := ffq_slot_word q q.pos 1
    let a3 := ffq_slot_word q q.pos 2
    let a4 := ffq_slot_word q q.pos 3
    let a5 := ffq_slot_word q q.pos 4
    let a6 := ffq_slot_word q q.pos 5
    let q := ffq_set_word q q.pos 0 FFQ_SLOT_EMPTY
    (some (a1, a2, a3, a4, a5, a6), { q with pos := q.pos % q.size })

/-- `FFQ_DEFAULT_SIZE`: 64 slots per direction. -/
def FFQ_DEFAULT_SIZE : Nat := 64

/-- A fresh FFQ channel as the creator of a cleared mapping sets it up:
64 slots of zeroed memory whose word 0 is then set to the empty sentinel. -/
def ffqFreshChan : FfqChan :=
  ffq_impl_init (List.replicate FFQ_DEFAULT_SIZE (List.replicate FFQ_MSG_WORDS 0))
    FFQ_DEFAULT_SIZE true

/-
================================================================================
Region pool (src/cleanq/region_pool.c)
================================================================================
-/

/-- `struct region`: `{id, base_addr, len}` (the stored `cap` pointer is not
observable through any pool operation and is omitted). -/
structure Region where
  id : Nat
  base_addr : Nat
  len : Nat
deriving DecidableEq, Repr

/-- `struct region_pool`.  `pool` is the slot table of length `size`. -/
structure RegionPool where
  size : Nat
  num_regions : Nat
  region_offset : Nat
  last_offset : Nat
  pool : List (Option Region)
deriving DecidableEq, Repr

/-- `INIT_POOL_SIZE`. -/
def INIT_POOL_SIZE : Nat := 16

/-- `region_pool_init`, parameterised by the value `rand()` returned
(the source sets `region_offset = rand() >> 12`). -/
def region_pool_init (rand : Nat) : RegionPool :=
  { size := INIT_POOL_SIZE, num_regions := 0, region_offset := rand >>> 12,
    last_offset := 0, pool := List.replicate INIT_POOL_SIZE none }

/-- `region_pool_grow`: double the table (`uint16_t` size), rehash every
region by `id & (new_size - 1)`, reset `last_offset`.  (The source reads
`region->id` of every slot without a null check; it is only called with a
full table.) -/
def region_pool_grow (p : RegionPool) : RegionPool :=
  let new_size := (p.size * 2) % 65536
  let newpool := p.pool.foldl
    (fun acc r =>
      match r with
      | none => acc
      | some reg => acc.set (Nat.land reg.id (new_size - 1)) (some reg))
    (List.replicate new_size (none : Option Region))
  { p with pool := newpool, size := new_size, last_offset := 0 }

/-- The overlap scan at the top of `region_pool_add_region`: true iff some
registered region has the same `paddr` or overlaps `[paddr, paddr+len)`
(`uint64_t` sums). -/
def region_pool_overlaps (p : RegionPool) (cap : Capref) : Bool :=
  p.pool.any (fun r =>
    match r with
    | none => false
    | some tmp =>
      tmp.base_addr == cap.paddr
        || ¬ (wadd cap.paddr cap.len ≤ tmp.base_addr
              || wadd tmp.base_addr tmp.len ≤ cap.paddr))

/-- The linear-probe loop of `region_pool_add_region`: probe
`(region_offset + num_regions + offset) & (size - 1)` for an empty slot,
incrementing the `uint16_t` `offset`.  The C loop is unbounded; fuel
`p.size` always suffices because the table has a free slot. -/
def region_pool_find_slot : RegionPool → Nat → Nat → Option Nat
  | _, _, 0 => none
  | p, offset, fuel + 1 =>
    let index := Nat.land (p.region_offset + p.num_regions + offset) (p.size - 1)
    match p.pool.getD index none with
    | none => some offset
    | some _ => region_pool_find_slot p ((offset + 1) % 65536) fuel

/-- `region_pool_add_region`: reject overlaps, grow a full table, probe for a
slot, and insert a region with id
`(region_offset + num_regions + offset) mod 2^32`.  Returns the error, the
new pool and the assigned id.  (The `MALLOC_FAIL` on probe exhaustion is
unreachable: a free slot always exists.) -/
def region_pool_add_region (p : RegionPool) (cap : Capref) :
    Errval × RegionPool × Nat :=
  if region_pool_overlaps p cap then (Errval.INVALID_REGION_ARGS, p, 0)
  else
    let p := if ¬ (p.num_regions < p.size) then region_pool_grow p else p
    let p := { p with num_regions := (p.num_regions + 1) % 65536 }
    match region_pool_find_slot p p.last_offset p.size with
    | none => (Errval.MALLOC_FAIL, p, 0)
    | some offset =>
      let p := { p with last_offset := offset }
      let rid := (p.region_offset + p.num_regions + offset) % 4294967296
      let reg : Region := { id := rid, base_addr := cap.paddr, len := cap.len }
      (Errval.OK,
       { p with pool := p.pool.set (Nat.land rid (p.size - 1)) (some reg) }, rid)

/-- `region_pool_add_region_with_id`: grow a full table, then insert at slot
`rid & (size - 1)`, failing with `INVALID_REGION_ID` if the slot is taken. -/
def region_pool_add_region_with_id (p : RegionPool) (cap : Capref) (rid : Nat) :
    Errval × RegionPool :=
  let p := if ¬ (p.num_regions < p.size) then region_pool_grow p else p
  match p.pool.getD (Nat.land rid (p.size - 1)) none with
  | some _ => (Errval.INVALID_REGION_ID, p)
  | none =>
    let reg : Region := { id := rid, base_addr := cap.paddr, len := cap.len }
    (Errval.OK,
     { p with pool := p.pool.set (Nat.land rid (p.size - 1)) (some reg),
              num_regions := (p.num_regions + 1) % 65536 })

/-- `region_pool_remove_region`: clear slot `rid & (size - 1)` if occupied
(`uint16_t` decrement of `num_regions`). -/
def region_pool_remove_region (p : RegionPool) (rid : Nat) : Errval × RegionPool :=
  match p.pool.getD (Nat.land rid (p.size - 1)) none with
  | none => (Errval.INVALID_REGION_ID, p)
  | some _ =>
    (Errval.OK,
     { p with pool := p.pool.set (Nat.land rid (p.size - 1)) none,
              num_regions := (p.num_regions + 65535) % 65536 })

/-- The slot the pool consults for a region id: `pool->pool[rid & (size-1)]`.
Note the stored region's own id is never compared against `rid`. -/
def region_at (p : RegionPool) (rid : Nat) : Option Region :=
  p.pool.getD (Nat.land rid (p.size - 1)) none

/-- `region_pool_buffer_check_bounds`: the slot for `rid` is occupied and
`length + offset ≤ region->len` and `valid_data + valid_length ≤ length`,
all sums computed in `uint64_t`. -/
def region_pool_buffer_check_bounds (p : RegionPool) (rid off len vd vl : Nat) :
    Bool :=
  match region_at p rid with
  | none => false
  | some r => ¬ (wadd len off > r.len || wadd vd vl > len)

/-
================================================================================
Frontend (src/cleanq/queue_interface.c)
================================================================================
-/

/-- `cleanq_enqueue`: bounds-check the buffer against the region pool, and
only then invoke the backend's `enq` function pointer (given here as the
parameter `enq` over an abstract backend state `S`). -/
def cleanq_enqueue {S : Type} (enq : S → Nat → Nat → Nat → Nat → Nat → Nat → Errval × S)
    (pool : RegionPool) (st : S) (rid off len vd vl flags : Nat) : Errval × S :=
  if ¬ region_pool_buffer_check_bounds pool rid off len vd vl then
    (Errval.INVALID_BUFFER_ARGS, st)
  else enq st rid off len vd vl flags

/-
================================================================================
FF backend (src/cleanq/backends/ff/ff_queue.c)
================================================================================
-/

/-- Which of the two optional user callbacks of `struct cleanq` are set. -/
structure Callbacks where
  reg : Bool
  dereg : Bool
deriving DecidableEq, Repr

/-- `struct cleanq_ffq` together with the generic `struct cleanq` parts the
datapath touches: the two channels, the region pool, the callback slots, and
a log of the user-callback invocations (kind, rid) — the callbacks' own
effects are opaque to the library, their returned error is only printed. -/
structure CleanqFfq where
  txq : FfqChan
  rxq : FfqChan
  pool : RegionPool
  callbacks : Callbacks
  events : List (Nat × Nat)
deriving DecidableEq, Repr

/-- `FFQ_CMD_REGISTER`. -/
def FFQ_CMD_REGISTER : Nat := 1

/-- `FFQ_CMD_DEREGISTER`. -/
def FFQ_CMD_DEREGISTER : Nat := 2

/-- `handle_register_command` of ff_queue.c: `cleanq_add_region`
(= `region_pool_add_region_with_id`), then the `reg` callback if set. -/
def ff_handle_register_command (q : CleanqFfq) (cap : Capref) (rid : Nat) :
    Errval × CleanqFfq :=
  let (err, pool) := region_pool_add_region_with_id q.pool cap rid
  let q := { q with pool := pool }
  if err ≠ Errval.OK then (err, q)
  else if q.callbacks.reg then
    (Errval.OK, { q with events := q.events ++ [(FFQ_CMD_REGISTER, rid)] })
  else (Errval.OK, q)

/-- `handle_deregister_command` of ff_queue.c: `cleanq_remove_region`
(= `region_pool_remove_region`), then the `dereg` callback if set. -/
def ff_handle_deregister_command (q : CleanqFfq) (rid : Nat) : Errval × CleanqFfq :=
  let (err, pool) := region_pool_remove_region q.pool rid
  let q := { q with pool := pool }
  if err ≠ Errval.OK then (err, q)
  else if q.callbacks.dereg then
    (Errval.OK, { q with events := q.events ++ [(FFQ_CMD_DEREGISTER, rid)] })
  else (Errval.OK, q)

/-- `ff_enqueue`: send on the TX channel and return
`sent ? CLEANQ_ERR_QUEUE_FULL : CLEANQ_ERR_OK` exactly as the source does. -/
def ff_enqueue (q : CleanqFfq) (rid off len vd vl flags : Nat) : Errval × CleanqFfq :=
  let (sent, tx) := ffq_impl_send q.txq rid off len vd vl flags
  (if sent then Errval.QUEUE_FULL else Errval.OK, { q with txq := tx })

/-- `ff_dequeue`: receive from the RX channel; a message whose sixth word
(`misc_flags`) is zero surfaces as a buffer; otherwise the message is a
register (`misc_flags = 1`) or deregister (any other value) command, which is
handled and the function re-enters itself.  The C recursion is modelled with
fuel; fuel 0 answers `QUEUE_EMPTY` like an empty channel. -/
def ff_dequeue : Nat → CleanqFfq → Errval × Option CleanqBuf × CleanqFfq
  | 0, q => (Errval.QUEUE_EMPTY, none, q)
  | fuel + 1, q =>
    match ffq_impl_recv q.rxq with
    | (none, rx) => (Errval.QUEUE_EMPTY, none, { q with rxq := rx })
    | (some (a1, a2, a3, a4, a5, a6), rx) =>
      let q := { q with rxq := rx }
      if a6 = 0 then
        (Errval.OK,
         some { rid := a1, offset := a2, length := a3, valid_data := a4,
                valid_length := a5, flags := a6 }, q)
      else
        let q :=
          if a6 = FFQ_CMD_REGISTER then
            (ff_handle_register_command q { vaddr := a2, paddr := a4, len := a3 } a1).2
          else
            (ff_handle_deregister_command q a1).2
        ff_dequeue fuel q

/-- A fresh FF backend queue as `cleanq_ffq_create` leaves it for the creator
of a cleared mapping (the callback slots of a fresh `struct cleanq` are null). -/
def ffqFreshQueue : CleanqFfq :=
  { txq := ffqFreshChan, rxq := ffqFreshChan, pool := region_pool_init 0,
    callbacks := { reg := false, dereg := false }, events := [] }

/-
================================================================================
IPC backend (src/cleanq/backends/ipc/ipc_queue.c)
================================================================================
-/

/-- `IPCQ_DEFAULT_SIZE`: 64 slots of 64 bytes per direction. -/
def IPCQ_DEFAULT_SIZE : Nat := 64

/-- `IPCQ_MESSAGE_SIZE`. -/
def IPCQ_MESSAGE_SIZE : Nat := 64

/-- `IPCQ_CHAN_SIZE = IPCQ_DEFAULT_SIZE * IPCQ_MESSAGE_SIZE`. -/
def IPCQ_CHAN_SIZE : Nat := IPCQ_DEFAULT_SIZE * IPCQ_MESSAGE_SIZE

/-- `IPCQ_MEM_SIZE = 2 * IPCQ_CHAN_SIZE`: the size of the shared mapping. -/
def IPCQ_MEM_SIZE : Nat := 2 * IPCQ_CHAN_SIZE

/-- `IPCQ_CMD_REGISTER`. -/
def IPCQ_CMD_REGISTER : Nat := 1

/-- `IPCQ_CMD_DEREGISTER`. -/
def IPCQ_CMD_DEREGISTER : Nat := 2

/-- `struct ipcq_desc` (the 4 padding bytes are not observable). -/
structure IpcqDesc where
  seq : Nat
  rid : Nat
  offset : Nat
  length : Nat
  valid_data : Nat
  valid_length : Nat
  flags : Nat
  cmd : Nat
deriving DecidableEq, Repr

/-- An all-zero descriptor: the contents of a cleared mapping. -/
def ipcqDescZero : IpcqDesc :=
  { seq := 0, rid := 0, offset := 0, length := 0, valid_data := 0,
    valid_length := 0, flags := 0, cmd := 0 }

/-- The byte offsets (into the shared mapping) at which `cleanq_ipcq_create`
places the two ack words and the two descriptor arrays, for the creator and
for the joiner, exactly as computed at lines 593-605 of ipc_queue.c. -/
structure IpcqLayout where
  tx_seq_ack : Nat
  rx_seq_ack : Nat
  tx_descs : Nat
  rx_descs : Nat
deriving DecidableEq, Repr

/-- The layout assignment of `cleanq_ipcq_create`.  For the creator the
source computes `rx_descs = rxtx_mem + IPCQ_CHAN_SIZE + IPCQ_CHAN_SIZE`. -/
def cleanq_ipcq_create_layout (creator : Bool) : IpcqLayout :=
  if creator then
    { tx_seq_ack := 0, rx_seq_ack := IPCQ_CHAN_SIZE,
      tx_descs := IPCQ_MESSAGE_SIZE,
      rx_descs := IPCQ_CHAN_SIZE + IPCQ_CHAN_SIZE }
  else
    { tx_seq_ack := IPCQ_CHAN_SIZE, rx_seq_ack := 0,
      tx_descs := IPCQ_CHAN_SIZE + IPCQ_MESSAGE_SIZE,
      rx_descs := IPCQ_MESSAGE_SIZE }

/-- The byte interval `[start, start + 64)` of descriptor slot `i` of a
descriptor array that begins at byte `descs`. -/
def ipcq_desc_slot_start (descs i : Nat) : Nat := descs + IPCQ_MESSAGE_SIZE * i

/-- One direction of an IPC queue pair: the producer's TX ring aliased with
the consumer's RX ring.  `descs` is the shared descriptor array of
`slots = IPCQ_DEFAULT_SIZE - 1` entries and `ack` the shared ack word that
the consumer publishes (`rx_seq_ack`) and the producer polls (`tx_seq_ack`).
In the source this aliasing holds for the creator-to-joiner direction
(creator `tx_descs` and joiner `rx_descs` are both at byte 64 of the
mapping, the shared ack word at byte 0).  `tx_seq` is the producer's local
counter, `rx_seq` the consumer's; the consumer's region pool, callback slots
and callback log ride along for the inline command path. -/
structure IpcChan where
  descs : List IpcqDesc
  ack : Nat
  tx_seq : Nat
  rx_seq : Nat
  slots : Nat
  pool : RegionPool
  callbacks : Callbacks
  events : List (Nat × Nat)
deriving DecidableEq, Repr

/-- `ipcq_can_send`: `(tx_seq - tx_seq_ack->value) < slots` in `uint64_t`. -/
def ipcq_can_send (c : IpcChan) : Bool :=
  wsub c.tx_seq c.ack < c.slots

/-- `ipcq_enqueue_internal`: if not full, write all descriptor fields at
`tx_descs[tx_seq % slots]`, publish `seq = tx_seq`, and increment the local
`tx_seq`. -/
def ipcq_enqueue_internal (c : IpcChan) (rid off len vd vl flags cmd : Nat) :
    Errval × IpcChan :=
  if ¬ ipcq_can_send c then (Errval.QUEUE_FULL, c)
  else
    let d : IpcqDesc :=
      { seq := c.tx_seq, rid := rid, offset := off, length := len,
        valid_data := vd, valid_length := vl, flags := flags, cmd := cmd }
    (Errval.OK,
     { c with descs := c.descs.set (c.tx_seq % c.slots) d,
              tx_seq := wadd c.tx_seq 1 })

/-- `ipcq_enqueue`: a data descriptor (`cmd = 0`). -/
def ipcq_enqueue (c : IpcChan) (rid off len vd vl flags : Nat) : Errval × IpcChan :=
  ipcq_enqueue_internal c rid off len vd vl flags 0

/-- `ipcq_can_recv`: `rx_seq <= rx_descs[rx_seq % slots].seq`. -/
def ipcq_can_recv (c : IpcChan) : Bool :=
  c.rx_seq ≤ (c.descs.getD (c.rx_seq % c.slots) ipcqDescZero).seq

/-- `handle_register_command` of ipc_queue.c (identical to the FF one, acting
on the consumer's pool and callback state). -/
def ipcq_handle_register_command (c : IpcChan) (cap : Capref) (rid : Nat) :
    Errval × IpcChan :=
  let (err, pool) := region_pool_add_region_with_id c.pool cap rid
  let c := { c with pool := pool }
  if err ≠ Errval.OK then (err, c)
  else if c.callbacks.reg then
    (Errval.OK, { c with events := c.events ++ [(IPCQ_CMD_REGISTER, rid)] })
  else (Errval.OK, c)

/-- `handle_register_decommand` of ipc_queue.c (the deregister handler, whose
source name it keeps). -/
def ipcq_handle_register_decommand (c : IpcChan) (rid : Nat) : Errval × IpcChan :=
  let (err, pool) := region_pool_remove_region c.pool rid
  let c := { c with pool := pool }
  if err ≠ Errval.OK then (err, c)
  else if c.callbacks.dereg then
    (Errval.OK, { c with events := c.events ++ [(IPCQ_CMD_DEREGISTER, rid)] })
  else (Errval.OK, c)

/-- `ipcq_dequeue`: if a descriptor with a high-enough sequence number is
visible at `rx_descs[rx_seq % slots]`: a `cmd = 0` descriptor surfaces (its
fields are copied out, `rx_seq` is incremented and published into the shared
ack word); otherwise the register/deregister command is handled, `rx_seq` is
incremented and published, and the function re-enters itself.  The C
recursion is modelled with fuel; fuel 0 answers `QUEUE_EMPTY`. -/
def ipcq_dequeue : Nat → IpcChan → Errval × Option CleanqBuf × IpcChan
  | 0, c => (Errval.QUEUE_EMPTY, none, c)
  | fuel + 1, c =>
    if ¬ ipcq_can_recv c then (Errval.QUEUE_EMPTY, none, c)
    else
      let tail := c.descs.getD (c.rx_seq % c.slots) ipcqDescZero
      if tail.cmd = 0 then
        let c := { c with rx_seq := wadd c.rx_seq 1 }
        let c := { c with ack := c.rx_seq }
        (Errval.OK,
         some { rid := tail.rid, offset := tail.offset, length := tail.length,
                valid_data := tail.valid_data, valid_length := tail.valid_length,
                flags := tail.flags }, c)
      else
        let c :=
          if tail.cmd = IPCQ_CMD_REGISTER then
            (ipcq_handle_register_command c
              { vaddr := tail.offset, paddr := tail.valid_data, len := tail.length }
              tail.rid).2
          else
            (ipcq_handle_register_decommand c tail.rid).2
        let c := { c with rx_seq := wadd c.rx_seq 1 }
        let c := { c with ack := c.rx_seq }
        ipcq_dequeue fuel c

/-- One direction of a freshly created IPC queue pair over a cleared mapping,
as `cleanq_ipcq_create` initialises it: 63 zeroed descriptor slots, ack word
0, both sequence counters 1, no callbacks set. -/
def ipcqFreshChan : IpcChan :=
  { descs := List.replicate (IPCQ_DEFAULT_SIZE - 1) ipcqDescZero, ack := 0,
    tx_seq := 1, rx_seq := 1, slots := IPCQ_DEFAULT_SIZE - 1,
    pool := region_pool_init 0, callbacks := { reg := false, dereg := false },
    events := [] }

/-
================================================================================
Loopback backend (src/cleanq/backends/loopback/loopback_queue.c)
================================================================================
-/

/-- `LOOPBACK_QUEUE_SIZE`. -/
def LOOPBACK_QUEUE_SIZE : Nat := 64

/-- `struct cleanq_loopbackq`: a 64-entry circular buffer of descriptors. -/
structure CleanqLoopbackq where
  queue : List CleanqBuf
  head : Nat
  tail : Nat
  num_ele : Nat
deriving DecidableEq, Repr

/-- `loopback_enqueue`: copy the descriptor at `head` unless full. -/
def loopback_enqueue (lq : CleanqLoopbackq) (rid off len vd vl flags : Nat) :
    Errval × CleanqLoopbackq :=
  if lq.num_ele = LOOPBACK_QUEUE_SIZE then (Errval.QUEUE_FULL, lq)
  else
    (Errval.OK,
     { lq with
        queue := lq.queue.set lq.head
          { rid := rid, offset := off, length := len, valid_data := vd,
            valid_length := vl, flags := flags },
        head := (lq.head + 1) % LOOPBACK_QUEUE_SIZE,
        num_ele := lq.num_ele + 1 })

/-- `loopback_dequeue`: pop the descriptor at `tail` unless empty (on failure
the C leaves the out-parameters untouched; the zero buffer stands for them). -/
def loopback_dequeue (lq : CleanqLoopbackq) : Errval × CleanqBuf × CleanqLoopbackq :=
  if lq.num_ele = 0 then (Errval.QUEUE_EMPTY, cleanqBufZero, lq)
  else
    (Errval.OK, lq.queue.getD lq.tail cleanqBufZero,
     { lq with tail := (lq.tail + 1) % LOOPBACK_QUEUE_SIZE,
               num_ele := lq.num_ele - 1 })

/-- `loopback_register` is a no-op that reports success. -/
def loopback_register (lq : CleanqLoopbackq) (_cap : Capref) (_rid : Nat) :
    Errval × CleanqLoopbackq :=
  (Errval.OK, lq)

/-- A fresh loopback queue (`calloc` zeroes the descriptor array). -/
def loopbackFresh : CleanqLoopbackq :=
  { queue := List.replicate LOOPBACK_QUEUE_SIZE cleanqBufZero,
    head := 0, tail := 0, num_ele := 0 }

/-
================================================================================
Debug wrapper (src/cleanq/backends/debug/debug_queue.c)
================================================================================
-/

/-- `struct memory_ele`: one free range `{offset, length}`.  The doubly
linked list of ranges is modelled as a Lean list in forward (`next`) order. -/
structure MemoryEle where
  offset : Nat
  length : Nat
deriving DecidableEq, Repr

/-- The zero range (slab nodes are zeroed where the source zeroes them). -/
def memoryEleZero : MemoryEle := { offset := 0, length := 0 }

/-- `struct memory_list`: the per-region tracking record. -/
structure MemoryList where
  rid : Nat
  length : Nat
  not_consistent : Bool
  buffers : List MemoryEle
deriving DecidableEq, Repr

/-- A zero record, used only as the (never consulted) default of `getD`. -/
def memoryListZero : MemoryList :=
  { rid := 0, length := 0, not_consistent := false, buffers := [] }

/-- `struct cleanq_debugq` over an inner backend with state `S`: the region
tracking list and the wrapped queue's state. -/
structure CleanqDebugq (S : Type) where
  inner : S
  regions : List MemoryList
deriving DecidableEq, Repr

/-- Insert an element before index `i` of a list. -/
def listInsertAt {α : Type} (l : List α) (i : Nat) (a : α) : List α :=
  l.take i ++ a :: l.drop i

/-- `buffer_in_bounds`: is buffer 1 contained in buffer 2
(`uint64_t` sums)? -/
def buffer_in_bounds (offset_b1 len_b1 offset_b2 len_b2 : Nat) : Bool :=
  decide (offset_b1 ≥ offset_b2) && decide (len_b1 ≤ len_b2)
    && decide (wadd offset_b1 len_b1 ≤ wadd offset_b2 len_b2)

/-- `find_region`: walk the region list for the first record with this rid;
returns its index and the record. -/
def find_region (rid : Nat) : List MemoryList → Option (Nat × MemoryList)
  | [] => none
  | r :: rest =>
    if r.rid = rid then some (0, r)
    else (find_region rid rest).map (fun p => (p.1 + 1, p.2))

/-- The search of `debug_enqueue` for a free range fully containing the
buffer (the source special-cases a single-element list, with the same
outcome): index of the first containing range. -/
def find_first_bounds (off len : Nat) : List MemoryEle → Option Nat
  | [] => none
  | b :: rest =>
    if buffer_in_bounds off len b.offset b.length then some 0
    else (find_first_bounds off len rest).map (· + 1)

/-- `remove_split_buffer` acting on the range at index `i`, which contains
`[off, off+len)`:
cut off the beginning (unlinking a range that becomes empty), cut off the
end, or split the range in two.  In the cut-off-end branch the source's
unlink assigns `buffer->prev` instead of `buffer->prev->next`, so the
emptied node stays on the `next` chain; the model keeps it likewise (the
case is unreachable: it would force `buffer->offset == offset`, which the
first branch already took). -/
def remove_split_buffer (bufs : List MemoryEle) (i : Nat) (off len : Nat) :
    List MemoryEle :=
  match bufs.get? i with
  | none => bufs
  | some b =>
    if b.offset = off then
      let b2 : MemoryEle := { offset := wadd b.offset len, length := wsub b.length len }
      if b2.length = 0 then bufs.eraseIdx i else bufs.set i b2
    else if wadd b.offset b.length = wadd off len then
      bufs.set i { b with length := wsub b.length len }
    else
      let b2 : MemoryEle := { b with length := wsub off b.offset }
      let after : MemoryEle :=
        { offset := wadd (wadd b.offset b2.length) len,
          length := wsub (wsub b.length b2.length) len }
      listInsertAt (bufs.set i b2) (i + 1) after

/-- `insert_merge_buffer` acting relative to the range at index `i`: place
`[off, off+len)` before or after it, merging with neighbours as the source
does.  Two source quirks are preserved: the insert-after lower-boundary test
compares `buffer->offset + length` (the *inserted* length) with `offset`,
and a zero-length insert that touches the previous range first inflates it
by 2048.  In the insert-after double-merge the source's relinking leaves the
absorbed node dangling (and dereferences a null `next->next` when the
absorbed node is last); the model removes the absorbed node, which is what
the forward chain shows when the source survives. -/
def insert_merge_buffer (bufs : List MemoryEle) (i : Nat) (off len : Nat) :
    List MemoryEle :=
  match bufs.get? i with
  | none => bufs
  | some b =>
    if off ≥ wadd b.offset b.length then
      -- insert after the buffer
      if wadd b.offset len = off then
        let b2 : MemoryEle := { b with length := wadd b.length len }
        match bufs.get? (i + 1) with
        | some nxt =>
          if wadd b2.offset b2.length = nxt.offset then
            ((bufs.set i { b2 with length := wadd b2.length nxt.length }).eraseIdx (i + 1))
          else bufs.set i b2
        | none => bufs.set i b2
      else
        match bufs.get? (i + 1) with
        | some nxt =>
          if nxt.offset = wadd off len then
            bufs.set (i + 1) { nxt with offset := off, length := wadd nxt.length len }
          else listInsertAt bufs (i + 1) { offset := off, length := len }
        | none =>
          if wadd b.offset b.length = off then
            bufs.set i { b with length := wadd b.length len }
          else listInsertAt bufs (i + 1) { offset := off, length := len }
    else
      -- insert before the buffer
      if b.offset = wadd off len then
        let b2 : MemoryEle := { offset := off, length := wadd b.length len }
        if i ≠ 0 then
          match bufs.get? (i - 1) with
          | some prev =>
            if wadd prev.offset prev.length = b2.offset then
              ((bufs.set (i - 1) { prev with length := wadd prev.length b2.length }).eraseIdx i)
            else bufs.set i b2
          | none => bufs.set i b2
        else bufs.set i b2
      else
        if i ≠ 0 then
          match bufs.get? (i - 1) with
          | some prev =>
            if wadd prev.offset prev.length = off then
              let prev2 :=
                if len = 0 then { prev with length := wadd prev.length 2048 } else prev
              bufs.set (i - 1) { prev2 with length := wadd prev2.length len }
            else listInsertAt bufs i { offset := off, length := len }
          | none => listInsertAt bufs i { offset := off, length := len }
        else listInsertAt bufs i { offset := off, length := len }

/-- `debug_enqueue`: find the region record, find a free range containing the
buffer, and only then invoke the inner queue's `enq`; on inner success the
range is removed or split.  An empty free-range list answers
`CLEANQ_ERR_BUFFER_ALREADY_IN_USE`, a miss answers
`CLEANQ_ERR_INVALID_BUFFER_ARGS`, both without touching the inner queue. -/
def debug_enqueue {S : Type}
    (innerEnq : S → Nat → Nat → Nat → Nat → Nat → Nat → Errval × S)
    (q : CleanqDebugq S) (rid off len vd vl flags : Nat) :
    Errval × CleanqDebugq S :=
  match find_region rid q.regions with
  | none => (Errval.INVALID_REGION_ID, q)
  | some (ri, region) =>
    match find_first_bounds off len region.buffers with
    | none =>
      if region.buffers.isEmpty then (Errval.BUFFER_ALREADY_IN_USE, q)
      else (Errval.INVALID_BUFFER_ARGS, q)
    | some bi =>
      let (err, s2) := innerEnq q.inner rid off len vd vl flags
      if err ≠ Errval.OK then (err, { q with inner := s2 })
      else
        (Errval.OK,
         { inner := s2,
           regions := q.regions.set ri
             ({ region with buffers := remove_split_buffer region.buffers bi off len }) })

/-- The walk of `debug_dequeue` over a multi-element free-range list:
starting at the head, advance while the dequeued offset is `≥` the current
range's offset and a `next` range exists; the index where the walk stops is
where the insert happens. -/
def debug_dequeue_walk (off : Nat) : List MemoryEle → Nat → Nat
  | [], i => i
  | [_], i => i
  | b :: rest, i => if off ≥ b.offset then debug_dequeue_walk off rest (i + 1) else i

/-- `debug_dequeue`: forward to the inner queue; on success, track the
returned buffer.  An unknown region is synthesized as `not_consistent` with
extent `offset + length` (in the synthesize-at-tail branch the source's
`memset` with `sizeof(ele->next)` zeroes the first 8 bytes of the *head*
region's first range node, i.e. that node's offset, which the model
reproduces).  For a known region the buffer is merged into the free-range
list, unless a range already fully contains it, in which case
`CLEANQ_ERR_BUFFER_NOT_IN_USE` is returned. -/
def debug_dequeue {S : Type} (innerDeq : S → Errval × CleanqBuf × S)
    (q : CleanqDebugq S) : Errval × CleanqBuf × CleanqDebugq S :=
  let (err, buf, s2) := innerDeq q.inner
  if err ≠ Errval.OK then (err, buf, { q with inner := s2 })
  else
    let q : CleanqDebugq S := { inner := s2, regions := q.regions }
    match find_region buf.rid q.regions with
    | none =>
      let newRegion : MemoryList :=
        { rid := buf.rid, length := wadd buf.offset buf.length,
          not_consistent := true,
          buffers := [{ offset := 0, length := wadd buf.offset buf.length }] }
      match q.regions with
      | [] => (Errval.OK, buf, { q with regions := [newRegion] })
      | r0 :: rest =>
        let r0 :=
          { r0 with buffers :=
              match r0.buffers with
              | [] => []
              | b :: bs => { b with offset := 0 } :: bs }
        (Errval.OK, buf, { q with regions := (r0 :: rest) ++ [newRegion] })
    | some (ri, region) =>
      let region :=
        if region.not_consistent && decide (wadd buf.offset buf.length > region.length)
        then { region with length := wadd buf.offset buf.length } else region
      match region.buffers with
      | [] =>
        let region :=
          { region with buffers := [{ offset := buf.offset, length := buf.length }] }
        (Errval.OK, buf, { q with regions := q.regions.set ri region })
      | [b] =>
        if ¬ buffer_in_bounds buf.offset buf.length b.offset b.length then
          let region2 :=
            { region with
               buffers := insert_merge_buffer region.buffers 0 buf.offset buf.length }
          (Errval.OK, buf, { q with regions := q.regions.set ri region2 })
        else (Errval.BUFFER_NOT_IN_USE, buf, { q with regions := q.regions.set ri region })
      | _ =>
        let wi := debug_dequeue_walk buf.offset region.buffers 0
        let b := region.buffers.getD wi memoryEleZero
        if ¬ buffer_in_bounds buf.offset buf.length b.offset b.length then
          let region2 :=
            { region with
               buffers := insert_merge_buffer region.buffers wi buf.offset buf.length }
          (Errval.OK, buf, { q with regions := q.regions.set ri region2 })
        else (Errval.BUFFER_NOT_IN_USE, buf, { q with regions := q.regions.set ri region })

/-- `debug_register`: forward to the inner queue's `reg`; on success append a
consistent region record whose single free range covers the whole region. -/
def debug_register {S : Type} (innerReg : S → Capref → Nat → Errval × S)
    (q : CleanqDebugq S) (cap : Capref) (rid : Nat) : Errval × CleanqDebugq S :=
  let (err, s2) := innerReg q.inner cap rid
  if err ≠ Errval.OK then (err, { q with inner := s2 })
  else
    let newRegion : MemoryList :=
      { rid := rid, length := cap.len, not_consistent := false,
        buffers := [{ offset := 0, length := cap.len }] }
    (Errval.OK, { inner := s2, regions := q.regions ++ [newRegion] })

/-- A fresh debug wrapper stacked on a fresh loopback queue
(`cleanq_debugq_create` over `loopback_queue_create`). -/
def debugLoopbackFresh : CleanqDebugq CleanqLoopbackq :=
  { inner := loopbackFresh, regions := [] }

/-
================================================================================
Concrete states and runs used by the theorems
================================================================================
-/

/-- An FF queue whose TX slot at `pos` is occupied (word 0 = 7, not the
sentinel): the queue-full situation. -/
def ffqFullQueue : CleanqFfq :=
  { ffqFreshQueue with txq := ffq_set_word ffqFreshChan 0 0 7 }

/-- A TX channel right after one successful send: the published message makes
it a loaded RX view for the peer. -/
def ffqLoadedChan : FfqChan := (ffq_impl_send ffqFreshChan 1 2 3 4 5 6).2

/-- The region registered for the aliasing counterexample. -/
def c3Cap : Capref := { vaddr := 0, paddr := 4096, len := 4096 }

/-- A pool obtained by registering one region on a fresh pool whose random
id base is 15 (`rand() = 61440`, `region_offset = 61440 >> 12 = 15`): the
region gets id `15 + 1 + 0 = 16` and sits in slot `16 & 15 = 0`. -/
def c3Pool : RegionPool := (region_pool_add_region (region_pool_init 61440) c3Cap).2.1

/-- A backend that counts its invocations: state is the invocation count. -/
def countBackend : Nat → Nat → Nat → Nat → Nat → Nat → Nat → Errval × Nat :=
  fun s _ _ _ _ _ _ => (Errval.OK, s + 1)

/-- Run `n` data enqueues (2048-byte buffers at offsets 0, 2048, ...) on a
fresh IPC direction, collecting the returned errors (scenario S2). -/
def ipcqFill (n : Nat) : List Errval × IpcChan :=
  (List.range n).foldl
    (fun acc i =>
      let r := ipcq_enqueue acc.2 1 (2048 * i) 2048 0 2048 0
      (acc.1 ++ [r.1], r.2))
    ([], ipcqFreshChan)

/-- The consumer dequeues one descriptor after the producer filled the ring
with 62 descriptors. -/
def ipcqDrainOne : Errval × Option CleanqBuf × IpcChan := ipcq_dequeue 4 (ipcqFill 62).2

/-- Scenario S3, step 1: register an 8192-byte region (rid 1) on a debug
wrapper over a loopback queue. -/
def s3Reg : Errval × CleanqDebugq CleanqLoopbackq :=
  debug_register loopback_register debugLoopbackFresh
    { vaddr := 0, paddr := 0, len := 8192 } 1

/-- Scenario S3, step 2: enqueue the buffer (offset 2048, length 2048). -/
def s3Enq : Errval × CleanqDebugq CleanqLoopbackq :=
  debug_enqueue loopback_enqueue s3Reg.2 1 2048 2048 0 2048 0

/-- Scenario S3, step 3: dequeue (the loopback returns the same buffer). -/
def s3Deq : Errval × CleanqBuf × CleanqDebugq CleanqLoopbackq :=
  debug_dequeue loopback_dequeue s3Enq.2

/-- Insert-merge counterexample, step 1: register an 8192-byte region. -/
def c7Reg : CleanqDebugq CleanqLoopbackq :=
  (debug_register loopback_register debugLoopbackFresh
    { vaddr := 0, paddr := 0, len := 8192 } 1).2

/-- Step 2: enqueue (4096, 4096); the free list becomes [(0, 4096)]. -/
def c7Enq1 : CleanqDebugq CleanqLoopbackq :=
  (debug_enqueue loopback_enqueue c7Reg 1 4096 4096 0 4096 0).2

/-- Step 3: enqueue (2048, 2048); the free list becomes [(0, 2048)]. -/
def c7Enq2 : CleanqDebugq CleanqLoopbackq :=
  (debug_enqueue loopback_enqueue c7Enq1 1 2048 2048 0 2048 0).2

/-- Step 4: dequeue; the loopback delivers (4096, 4096) first (FIFO), which
`insert_merge_buffer` places relative to the range (0, 2048). -/
def c7Deq : Errval × CleanqBuf × CleanqDebugq CleanqLoopbackq :=
  debug_dequeue loopback_dequeue c7Enq2

/-- Double-enqueue counterexample: register a 4096-byte region and enqueue
all of it, draining the free-range list to []. -/
def c8Drained : CleanqDebugq CleanqLoopbackq :=
  (debug_enqueue loopback_enqueue
    (debug_register loopback_register debugLoopbackFresh
      { vaddr := 0, paddr := 0, len := 4096 } 1).2
    1 0 4096 0 4096 0).2

/-- An RX channel carrying one data message (rid 5, offset 0, length 1024,
valid 0/1024, flags 0) in slot 0. -/
def c9DataChan : FfqChan :=
  let q := ffqFreshChan
  let q := ffq_set_word q 0 1 0
  let q := ffq_set_word q 0 2 1024
  let q := ffq_set_word q 0 3 0
  let q := ffq_set_word q 0 4 1024
  let q := ffq_set_word q 0 5 0
  ffq_set_word q 0 0 5

/-- An FF queue whose RX channel carries the one data message above. -/
def c9DataQueue : CleanqFfq := { ffqFreshQueue with rxq := c9DataChan }

/-- The buffer that message surfaces as. -/
def c9DataBuf : CleanqBuf :=
  { rid := 5, offset := 0, length := 1024, valid_data := 0, valid_length := 1024, flags := 0 }

/-- An IPC direction whose slot 1 holds a visible data descriptor. -/
def c9IpcChan : IpcChan :=
  { ipcqFreshChan with
     descs := ipcqFreshChan.descs.set 1
       { seq := 1, rid := 5, offset := 0, length := 1024, valid_data := 0,
         valid_length := 1024, flags := 0, cmd := 0 } }

/-- A debug wrapper owning all of region 1 while its loopback holds the
buffer (2048, 2048): the inner dequeue will return bytes the wrapper still
owns. -/
def c10State : CleanqDebugq CleanqLoopbackq :=
  { inner := (loopback_enqueue loopbackFresh 1 2048 2048 0 2048 0).2,
    regions := [{ rid := 1, length := 8192, not_consistent := false,
                  buffers := [{ offset := 0, length := 8192 }] }] }

/-
================================================================================
Helper lemmas
================================================================================
-/

theorem find_first_bounds_eq_none {off len : Nat} :
    ∀ {l : List MemoryEle},
      (∀ b ∈ l, buffer_in_bounds off len b.offset b.length = false) →
      find_first_bounds off len l = none := by
  intro l
  induction l with
  | nil => intro _; rfl
  | cons b rest ih =>
    intro h
    have hb := h b (List.mem_cons_self b rest)
    have hrest : ∀ x ∈ rest, buffer_in_bounds off len x.offset x.length = false :=
      fun x hx => h x (List.mem_cons_of_mem b hx)
    simp [find_first_bounds, hb, ih hrest]

theorem find_region_getElem? {rid : Nat} :
    ∀ {l : List MemoryList} {i : Nat} {r : MemoryList},
      find_region rid l = some (i, r) → l[i]? = some r := by
  intro l
  induction l with
  | nil => intro i r h; simp [find_region] at h
  | cons x rest ih =>
    intro i r h
    rw [find_region] at h
    by_cases hx : x.rid = rid
    · rw [if_pos hx] at h
      simp only [Option.some.injEq, Prod.mk.injEq] at h
      obtain ⟨hi, hr⟩ := h
      subst hi; subst hr; simp
    · rw [if_neg hx] at h
      rw [Option.map_eq_some'] at h
      obtain ⟨p, hp, hpr⟩ := h
      simp only [Prod.mk.injEq] at hpr
      obtain ⟨hi, hr⟩ := hpr
      subst hr
      cases i with
      | zero => omega
      | succ j =>
        have hj : p.1 = j := by omega
        have := ih (i := p.1) (r := p.2) (by rw [hp])
        rw [hj] at this
        simpa using this

theorem map_set_same {α β : Type} (f : α → β) :
    ∀ (l : List α) (i : Nat) (r r2 : α),
      l[i]? = some r → f r2 = f r → (l.set i r2).map f = l.map f := by
  intro l
  induction l with
  | nil => intro i r r2 h _; simp at h
  | cons x rest ih =>
    intro i r r2 h hf
    cases i with
    | zero =>
      have hx : x = r := by simpa using h
      show f r2 :: rest.map f = f x :: rest.map f
      rw [hf, hx]
    | succ j =>
      have h2 : rest[j]? = some r := by simpa using h
      show f x :: (rest.set j r2).map f = f x :: rest.map f
      rw [ih j r r2 h2 hf]

theorem getD_mem {α : Type} :
    ∀ (l : List α) (i : Nat) (d : α), i < l.length → l.getD i d ∈ l := by
  intro l
  induction l with
  | nil => intro i d h; simp at h
  | cons x rest ih =>
    intro i d h
    cases i with
    | zero => simp [List.getD]
    | succ j =>
      simp only [List.length_cons] at h
      have := ih j d (by omega)
      simp [List.getD] at this ⊢
      exact Or.inr this

/-
================================================================================
Claim theorems
================================================================================
-/

/-- C1: the FF backend's `ff_enqueue` reports the *inverse* of what the claim
(and its own doc comment) state: on a fresh channel the slot at `pos` is
empty, the payload is written and published, yet the call returns
`CLEANQ_ERR_QUEUE_FULL`; on an occupied slot nothing is written yet the call
returns `CLEANQ_ERR_OK` (`sent ? CLEANQ_ERR_QUEUE_FULL : CLEANQ_ERR_OK` at
ff_queue.c:159). -/
theorem ff_enqueue_result_inverted :
    ffq_impl_can_send ffqFreshQueue.txq = true ∧
    (ff_enqueue ffqFreshQueue 1 2 3 4 5 0).1 = Errval.QUEUE_FULL ∧
    ffq_slot_word (ff_enqueue ffqFreshQueue 1 2 3 4 5 0).2.txq 0 0 = 1 ∧
    ffq_slot_word (ff_enqueue ffqFreshQueue 1 2 3 4 5 0).2.txq 0 2 = 3 ∧
    ffq_impl_can_send ffqFullQueue.txq = false ∧
    (ff_enqueue ffqFullQueue 1 2 3 4 5 0).1 = Errval.OK ∧
    (ff_enqueue ffqFullQueue 1 2 3 4 5 0).2 = ffqFullQueue := by
  decide

/-- C2: after a successful FFQ send or receive the private position is *not*
advanced: the source computes `pos = pos % size` without the increment, so
from `pos = 0` the position stays 0 instead of becoming
`(0 + 1) mod 64 = 1`. -/
theorem ffq_pos_never_advances :
    (ffq_impl_send ffqFreshChan 1 2 3 4 5 6).1 = true ∧
    (ffq_impl_send ffqFreshChan 1 2 3 4 5 6).2.pos = 0 ∧
    (ffq_impl_send ffqFreshChan 1 2 3 4 5 6).2.pos ≠
      (ffqFreshChan.pos + 1) % ffqFreshChan.size ∧
    (ffq_impl_recv ffqLoadedChan).1 ≠ none ∧
    (ffq_impl_recv ffqLoadedChan).2.pos = 0 ∧
    (ffq_impl_recv ffqLoadedChan).2.pos ≠ (ffqLoadedChan.pos + 1) % ffqLoadedChan.size := by
  decide

/-- C3 counterexample: the frontend's bounds check looks up the pool slot
`region_id & (size - 1)` without comparing the stored region's id, so an
enqueue for region id 32 — an id that exists nowhere in the pool, which
holds only the region with id 16 — passes the check and invokes the backend
(the invocation counter moves 0 → 1 and the call returns `CLEANQ_ERR_OK`),
instead of failing with `CLEANQ_ERR_INVALID_BUFFER_ARGS` as the claim
requires for a non-existent region id. -/
theorem cleanq_enqueue_accepts_aliased_region_id :
    cleanq_enqueue countBackend c3Pool 0 32 0 1024 0 1024 0 = (Errval.OK, 1) ∧
    (∀ r ∈ c3Pool.pool, ∀ reg, r = some reg → reg.id ≠ 32) := by
  decide

/-- C3 (amended): the frontend enqueue returns `CLEANQ_ERR_INVALID_BUFFER_ARGS`
without invoking the backend whenever the pool slot indexed by
`region_id & (size - 1)` is empty or the region stored there fails
`offset + length ≤ region.len` or `valid_data + valid_length ≤ length`
(sums in wrapping 64-bit arithmetic); and the call returns `CLEANQ_ERR_OK`
only if that slot holds a region satisfying both bounds. -/
theorem cleanq_enqueue_bounds_check_spec {S : Type}
    (enq : S → Nat → Nat → Nat → Nat → Nat → Nat → Errval × S)
    (pool : RegionPool) (st : S) (rid off len vd vl flags : Nat) :
    (region_at pool rid = none →
      cleanq_enqueue enq pool st rid off len vd vl flags = (Errval.INVALID_BUFFER_ARGS, st)) ∧
    (∀ reg, region_at pool rid = some reg →
      (reg.len < wadd len off ∨ len < wadd vd vl) →
      cleanq_enqueue enq pool st rid off len vd vl flags = (Errval.INVALID_BUFFER_ARGS, st)) ∧
    ((cleanq_enqueue enq pool st rid off len vd vl flags).1 = Errval.OK →
      ∃ reg, region_at pool rid = some reg ∧ wadd len off ≤ reg.len ∧ wadd vd vl ≤ len) := by
  refine ⟨?_, ?_, ?_⟩
  · intro h
    simp [cleanq_enqueue, region_pool_buffer_check_bounds, h]
  · intro reg hreg hlt
    have hfalse : region_pool_buffer_check_bounds pool rid off len vd vl = false := by
      simp [region_pool_buffer_check_bounds, hreg]
      omega
    simp [cleanq_enqueue, hfalse]
  · intro h
    cases hr : region_at pool rid with
    | none =>
      have hfalse : region_pool_buffer_check_bounds pool rid off len vd vl = false := by
        simp [region_pool_buffer_check_bounds, hr]
      simp [cleanq_enqueue, hfalse] at h
    | some reg =>
      by_cases hb : wadd len off ≤ reg.len ∧ wadd vd vl ≤ len
      · exact ⟨reg, rfl, hb.1, hb.2⟩
      · have hfalse : region_pool_buffer_check_bounds pool rid off len vd vl = false := by
          simp [region_pool_buffer_check_bounds, hr]
          omega
        simp [cleanq_enqueue, hfalse] at h

/-- C3 witness for the amended theorem: a concrete pool whose slot for region
id 7 is empty makes the frontend reject the enqueue without touching the
counting backend. -/
theorem cleanq_enqueue_bounds_check_spec_witness :
    cleanq_enqueue countBackend c3Pool 0 7 0 1024 0 1024 0 = (Errval.INVALID_BUFFER_ARGS, 0) :=
  (cleanq_enqueue_bounds_check_spec countBackend c3Pool 0 7 0 1024 0 1024 0).1 (by decide)

/-- C4 counterexample: on a freshly created IPC direction (tx_seq = rx_seq = 1,
ack word 0, 63 descriptor slots) the 63rd consecutive enqueue already returns
`CLEANQ_ERR_QUEUE_FULL` — only 62 succeed, because `ipcq_can_send` compares
`tx_seq - ack = 63` against `slots = 63` with `tx_seq` starting at 1 while
the ack word starts at 0.  The claim's 63 consecutive successes are
impossible. -/
theorem ipcq_sixtythird_enqueue_full :
    (ipcqFill 63).1 = List.replicate 62 Errval.OK ++ [Errval.QUEUE_FULL] ∧
    (ipcqFill 63).1 ≠ List.replicate 63 Errval.OK := by
  decide

/-- C4 (amended): on a freshly created IPC direction, 62 consecutive
enqueues of data buffers succeed, the 63rd returns `CLEANQ_ERR_QUEUE_FULL`,
and after the peer dequeues one descriptor (which publishes ack = 2) the
next enqueue succeeds. -/
theorem ipcq_fill_drain_refill :
    (ipcqFill 62).1 = List.replicate 62 Errval.OK ∧
    (ipcq_enqueue (ipcqFill 62).2 1 126976 2048 0 2048 0).1 = Errval.QUEUE_FULL ∧
    ipcqDrainOne.1 = Errval.OK ∧
    ipcqDrainOne.2.2.ack = 2 ∧
    (ipcq_enqueue ipcqDrainOne.2.2 1 126976 2048 0 2048 0).1 = Errval.OK := by
  decide

/-- C5: the address arithmetic of `cleanq_ipcq_create` places the creator's
RX descriptor array at byte offset `2 * IPCQ_CHAN_SIZE = 8192`, the end of
the `IPCQ_MEM_SIZE = 8192`-byte shared mapping: the first descriptor the
creator's receive path reads (slot `rx_seq mod 63 = 1`) starts at byte 8256,
entirely outside the mapping, and the creator's RX array does not coincide
with the joiner's TX array at `IPCQ_CHAN_SIZE + IPCQ_MESSAGE_SIZE = 4160`
(the claimed aliasing, which does hold for the opposite direction: the
joiner's RX equals the creator's TX at byte 64, whose slots 0..62 all lie
inside the mapping). -/
theorem ipcq_creator_rx_descs_outside_mapping :
    (cleanq_ipcq_create_layout true).rx_descs = IPCQ_CHAN_SIZE + IPCQ_CHAN_SIZE ∧
    IPCQ_MEM_SIZE ≤ (cleanq_ipcq_create_layout true).rx_descs ∧
    IPCQ_MEM_SIZE <
      ipcq_desc_slot_start (cleanq_ipcq_create_layout true).rx_descs
        (1 % (IPCQ_DEFAULT_SIZE - 1)) ∧
    (cleanq_ipcq_create_layout true).rx_descs ≠ (cleanq_ipcq_create_layout false).tx_descs ∧
    (cleanq_ipcq_create_layout false).rx_descs = (cleanq_ipcq_create_layout true).tx_descs ∧
    ipcq_desc_slot_start (cleanq_ipcq_create_layout true).tx_descs (IPCQ_DEFAULT_SIZE - 2)
      + IPCQ_MESSAGE_SIZE ≤ IPCQ_MEM_SIZE := by
  decide

/-- C6: scenario S3 on the debug wrapper over a loopback queue: after
registering the 8192-byte region the free-range list is [(0, 8192)]; after
enqueuing the buffer (2048, 2048) it is [(0, 2048), (4096, 4096)]; after
dequeuing the same buffer it is [(0, 8192)] again, every step succeeding. -/
theorem debug_s3_split_merge_roundtrip :
    s3Reg.1 = Errval.OK ∧
    s3Reg.2.regions.map MemoryList.buffers = [[{ offset := 0, length := 8192 }]] ∧
    s3Enq.1 = Errval.OK ∧
    s3Enq.2.regions.map MemoryList.buffers =
      [[{ offset := 0, length := 2048 }, { offset := 4096, length := 4096 }]] ∧
    s3Deq.1 = Errval.OK ∧
    s3Deq.2.2.regions.map MemoryList.buffers = [[{ offset := 0, length := 8192 }]] := by
  decide

/-- C7: a debug-wrapper dequeue that inserts the range [4096, 8192) into the
free-range list [(0, 2048)] fuses it into the single range (0, 6144) even
though the boundaries do not touch (0 + 2048 ≠ 4096): `insert_merge_buffer`
tests `buffer->offset + length == offset` — the *inserted* length, here
0 + 4096 = 4096 — instead of `buffer->offset + buffer->length`.  The state
is reached by registering an 8192-byte region, enqueuing (4096, 4096) and
(2048, 2048), then dequeuing (the loopback delivers (4096, 4096) first).
The resulting list misstates ownership of [2048, 4096) and [6144, 8192). -/
theorem insert_merge_fuses_non_touching_ranges :
    c7Enq2.regions.map MemoryList.buffers = [[{ offset := 0, length := 2048 }]] ∧
    c7Deq.1 = Errval.OK ∧
    c7Deq.2.1 =
      { rid := 1, offset := 4096, length := 4096, valid_data := 0,
        valid_length := 4096, flags := 0 } ∧
    c7Deq.2.2.regions.map MemoryList.buffers = [[{ offset := 0, length := 6144 }]] ∧
    wadd 0 2048 ≠ 4096 ∧
    c7Deq.2.2.regions.map MemoryList.buffers ≠
      [[{ offset := 0, length := 2048 }, { offset := 4096, length := 4096 }]] := by
  decide

/-- C8 counterexample: on a known region whose free-range list has become
empty (register 4096 bytes, then enqueue the whole region), a second enqueue
of a buffer — which is contained in no node of the (empty) list — returns
`CLEANQ_ERR_BUFFER_ALREADY_IN_USE`, not the `CLEANQ_ERR_INVALID_BUFFER_ARGS`
the claim requires. -/
theorem debug_enqueue_empty_freelist_wrong_error :
    c8Drained.regions.map MemoryList.buffers = [[]] ∧
    (debug_enqueue loopback_enqueue c8Drained 1 0 4096 0 4096 0).1 =
      Errval.BUFFER_ALREADY_IN_USE ∧
    Errval.BUFFER_ALREADY_IN_USE ≠ Errval.INVALID_BUFFER_ARGS := by
  decide

/-- C8 (amended): if the debug wrapper's enqueue is called on a known region
for a buffer not fully contained in any node of that region's free-range
list, the call returns `CLEANQ_ERR_INVALID_BUFFER_ARGS` when the list is
non-empty and `CLEANQ_ERR_BUFFER_ALREADY_IN_USE` when it is empty; in both
cases the inner backend is not invoked (the result is the same for every
inner enqueue function) and the wrapper state, free-range list included, is
unchanged. -/
theorem debug_enqueue_unowned_buffer_rejected {S : Type}
    (innerEnq : S → Nat → Nat → Nat → Nat → Nat → Nat → Errval × S)
    (q : CleanqDebugq S) (rid off len vd vl flags : Nat)
    (ri : Nat) (region : MemoryList)
    (hfind : find_region rid q.regions = some (ri, region))
    (hmiss : ∀ b ∈ region.buffers, buffer_in_bounds off len b.offset b.length = false) :
    debug_enqueue innerEnq q rid off len vd vl flags =
      (if region.buffers.isEmpty then (Errval.BUFFER_ALREADY_IN_USE, q)
       else (Errval.INVALID_BUFFER_ARGS, q)) := by
  simp only [debug_enqueue, hfind, find_first_bounds_eq_none hmiss]

/-- C8 witness: the drained region rejects a re-enqueue with
`CLEANQ_ERR_BUFFER_ALREADY_IN_USE`, and a non-empty free-range list
containing none of the buffer rejects it with
`CLEANQ_ERR_INVALID_BUFFER_ARGS`, both leaving the state untouched. -/
theorem debug_enqueue_unowned_buffer_rejected_witness :
    debug_enqueue loopback_enqueue c8Drained 1 0 4096 0 4096 0 =
      (Errval.BUFFER_ALREADY_IN_USE, c8Drained) ∧
    debug_enqueue loopback_enqueue c7Enq2 1 3000 2048 0 2048 0 =
      (Errval.INVALID_BUFFER_ARGS, c7Enq2) := by
  constructor
  · have h := debug_enqueue_unowned_buffer_rejected loopback_enqueue c8Drained
      1 0 4096 0 4096 0 0
      { rid := 1, length := 4096, not_consistent := false, buffers := [] }
      (by decide) (by decide)
    simpa using h
  · have h := debug_enqueue_unowned_buffer_rejected loopback_enqueue c7Enq2
      1 3000 2048 0 2048 0 0
      { rid := 1, length := 8192, not_consistent := false,
        buffers := [{ offset := 0, length := 2048 }] }
      (by decide) (by decide)
    simpa using h

theorem ipcq_handle_register_command_frame (c : IpcChan) (cap : Capref) (rid : Nat) :
    ((ipcq_handle_register_command c cap rid).2).descs = c.descs ∧
    ((ipcq_handle_register_command c cap rid).2).slots = c.slots ∧
    ((ipcq_handle_register_command c cap rid).2).rx_seq = c.rx_seq := by
  rw [ipcq_handle_register_command]
  rcases region_pool_add_region_with_id c.pool cap rid with ⟨err, pool⟩
  by_cases he : err = Errval.OK <;> by_cases hc : c.callbacks.reg <;> simp [he, hc]

theorem ipcq_handle_register_decommand_frame (c : IpcChan) (rid : Nat) :
    ((ipcq_handle_register_decommand c rid).2).descs = c.descs ∧
    ((ipcq_handle_register_decommand c rid).2).slots = c.slots ∧
    ((ipcq_handle_register_decommand c rid).2).rx_seq = c.rx_seq := by
  rw [ipcq_handle_register_decommand]
  rcases region_pool_remove_region c.pool rid with ⟨err, pool⟩
  by_cases he : err = Errval.OK <;> by_cases hc : c.callbacks.dereg <;> simp [he, hc]

theorem ff_dequeue_data_only :
    ∀ (fuel : Nat) (q : CleanqFfq) (err : Errval) (buf : CleanqBuf) (q2 : CleanqFfq),
      ff_dequeue fuel q = (err, some buf, q2) → err = Errval.OK ∧ buf.flags = 0 := by
  intro fuel
  induction fuel with
  | zero => intro q err buf q2 h; simp [ff_dequeue] at h
  | succ n ih =>
    intro q err buf q2 h
    rw [ff_dequeue] at h
    rcases hrecv : ffq_impl_recv q.rxq with ⟨o, rx⟩
    rw [hrecv] at h
    cases o with
    | none => simp at h
    | some msg =>
      obtain ⟨a1, a2, a3, a4, a5, a6⟩ := msg
      by_cases h6 : a6 = 0
      · simp only [h6] at h
        simp at h
        obtain ⟨herr, hbuf, hq⟩ := h
        exact ⟨herr.symm, by rw [← hbuf]⟩
      · simp only [h6, if_neg h6] at h
        exact ih _ err buf q2 h

theorem ipcq_dequeue_data_only :
    ∀ (fuel : Nat) (c : IpcChan) (err : Errval) (buf : CleanqBuf) (c2 : IpcChan),
      c.slots ≤ c.descs.length → 0 < c.slots →
      ipcq_dequeue fuel c = (err, some buf, c2) →
      err = Errval.OK ∧
      ∃ d ∈ c.descs, d.cmd = 0 ∧
        buf = { rid := d.rid, offset := d.offset, length := d.length,
                valid_data := d.valid_data, valid_length := d.valid_length,
                flags := d.flags } := by
  intro fuel
  induction fuel with
  | zero => intro c err buf c2 _ _ h; simp [ipcq_dequeue] at h
  | succ n ih =>
    intro c err buf c2 hlen hpos h
    rw [ipcq_dequeue] at h
    by_cases hr : ipcq_can_recv c = true
    · rw [if_neg (by simp [hr])] at h
      by_cases hcmd : (c.descs.getD (c.rx_seq % c.slots) ipcqDescZero).cmd = 0
      · simp only [hcmd] at h
        simp at h
        obtain ⟨herr, hbuf, hq⟩ := h
        refine ⟨herr.symm, c.descs.getD (c.rx_seq % c.slots) ipcqDescZero, ?_, hcmd, ?_⟩
        · exact getD_mem c.descs _ _ (lt_of_lt_of_le (Nat.mod_lt _ hpos) hlen)
        · simpa using hbuf.symm
      · simp only [hcmd, if_neg hcmd] at h
        by_cases hreg : (c.descs.getD (c.rx_seq % c.slots) ipcqDescZero).cmd = IPCQ_CMD_REGISTER
        · rw [if_pos hreg] at h
          set tail := c.descs.getD (c.rx_seq % c.slots) ipcqDescZero with htail
          have hframe := ipcq_handle_register_command_frame c
            { vaddr := tail.offset, paddr := tail.valid_data, len := tail.length } tail.rid
          have := ih _ err buf c2
            (by rw [hframe.1, hframe.2.1]; exact hlen)
            (by rw [hframe.2.1]; exact hpos) h
          rw [hframe.1] at this
          exact this
        · rw [if_neg hreg] at h
          set tail := c.descs.getD (c.rx_seq % c.slots) ipcqDescZero with htail
          have hframe := ipcq_handle_register_decommand_frame c tail.rid
          have := ih _ err buf c2
            (by rw [hframe.1, hframe.2.1]; exact hlen)
            (by rw [hframe.2.1]; exact hpos) h
          rw [hframe.1] at this
          exact this
    · rw [if_pos (by simpa using hr)] at h
      simp at h

/-- C9: dequeue on the FF and IPC backends never returns a register or
deregister command: every surfaced FF message has misc-flags word 0 (the FF
command channel) and every surfaced IPC buffer is the field copy of a ring
descriptor with `cmd = 0`; and whenever the received slot or descriptor
carries a command, the receiver applies `handle_register_command`
(`region_pool_add_region_with_id` plus the `reg` user callback if set) or
`handle_deregister_command` / `handle_register_decommand`
(`region_pool_remove_region` plus the `dereg` callback if set) and re-enters
the receive function on the updated state. -/
theorem dequeue_commands_never_surface :
    (∀ (fuel : Nat) (q : CleanqFfq) (err : Errval) (buf : CleanqBuf) (q2 : CleanqFfq),
       ff_dequeue fuel q = (err, some buf, q2) → err = Errval.OK ∧ buf.flags = 0) ∧
    (∀ (fuel : Nat) (c : IpcChan) (err : Errval) (buf : CleanqBuf) (c2 : IpcChan),
       c.slots ≤ c.descs.length → 0 < c.slots →
       ipcq_dequeue fuel c = (err, some buf, c2) →
       err = Errval.OK ∧
       ∃ d ∈ c.descs, d.cmd = 0 ∧
         buf = { rid := d.rid, offset := d.offset, length := d.length,
                 valid_data := d.valid_data, valid_length := d.valid_length,
                 flags := d.flags }) ∧
    (∀ (fuel : Nat) (q : CleanqFfq) (a1 a2 a3 a4 a5 a6 : Nat) (rx : FfqChan),
       ffq_impl_recv q.rxq = (some (a1, a2, a3, a4, a5, a6), rx) →
       a6 = FFQ_CMD_REGISTER →
       ff_dequeue (fuel + 1) q =
         ff_dequeue fuel
           (ff_handle_register_command { q with rxq := rx }
             { vaddr := a2, paddr := a4, len := a3 } a1).2) ∧
    (∀ (fuel : Nat) (q : CleanqFfq) (a1 a2 a3 a4 a5 a6 : Nat) (rx : FfqChan),
       ffq_impl_recv q.rxq = (some (a1, a2, a3, a4, a5, a6), rx) →
       a6 ≠ 0 → a6 ≠ FFQ_CMD_REGISTER →
       ff_dequeue (fuel + 1) q =
         ff_dequeue fuel (ff_handle_deregister_command { q with rxq := rx } a1).2) ∧
    (∀ (fuel : Nat) (c : IpcChan),
       ipcq_can_recv c = true →
       (c.descs.getD (c.rx_seq % c.slots) ipcqDescZero).cmd = IPCQ_CMD_REGISTER →
       ipcq_dequeue (fuel + 1) c =
         ipcq_dequeue fuel
           { (ipcq_handle_register_command c
               { vaddr := (c.descs.getD (c.rx_seq % c.slots) ipcqDescZero).offset,
                 paddr := (c.descs.getD (c.rx_seq % c.slots) ipcqDescZero).valid_data,
                 len := (c.descs.getD (c.rx_seq % c.slots) ipcqDescZero).length }
               (c.descs.getD (c.rx_seq % c.slots) ipcqDescZero).rid).2 with
             rx_seq := wadd c.rx_seq 1, ack := wadd c.rx_seq 1 }) ∧
    (∀ (fuel : Nat) (c : IpcChan),
       ipcq_can_recv c = true →
       (c.descs.getD (c.rx_seq % c.slots) ipcqDescZero).cmd ≠ 0 →
       (c.descs.getD (c.rx_seq % c.slots) ipcqDescZero).cmd ≠ IPCQ_CMD_REGISTER →
       ipcq_dequeue (fuel + 1) c =
         ipcq_dequeue fuel
           { (ipcq_handle_register_decommand c
               (c.descs.getD (c.rx_seq % c.slots) ipcqDescZero).rid).2 with
             rx_seq := wadd c.rx_seq 1, ack := wadd c.rx_seq 1 }) := by
  refine ⟨ff_dequeue_data_only, ipcq_dequeue_data_only, ?_, ?_, ?_, ?_⟩
  · intro fuel q a1 a2 a3 a4 a5 a6 rx hrecv h6
    rw [ff_dequeue, hrecv]
    simp [h6, FFQ_CMD_REGISTER]
  · intro fuel q a1 a2 a3 a4 a5 a6 rx hrecv h60 h6r
    rw [ff_dequeue, hrecv]
    simp [h60, h6r]
  · intro fuel c hr hreg
    rw [ipcq_dequeue]
    rw [if_neg (by simp [hr])]
    have hne : (c.descs.getD (c.rx_seq % c.slots) ipcqDescZero).cmd ≠ 0 := by
      rw [hreg]; simp [IPCQ_CMD_REGISTER]
    rw [if_neg hne, if_pos hreg]
    have hframe := ipcq_handle_register_command_frame c
      { vaddr := (c.descs.getD (c.rx_seq % c.slots) ipcqDescZero).offset,
        paddr := (c.descs.getD (c.rx_seq % c.slots) ipcqDescZero).valid_data,
        len := (c.descs.getD (c.rx_seq % c.slots) ipcqDescZero).length }
      (c.descs.getD (c.rx_seq % c.slots) ipcqDescZero).rid
    simp only [hframe.2.2]
  · intro fuel c hr h0 hreg
    rw [ipcq_dequeue]
    rw [if_neg (by simp [hr])]
    rw [if_neg h0, if_neg hreg]
    have hframe := ipcq_handle_register_decommand_frame c
      (c.descs.getD (c.rx_seq % c.slots) ipcqDescZero).rid
    simp only [hframe.2.2]

/-- C9 witness: a concrete FF queue and a concrete IPC direction, each
holding one data message, surface it with flags 0 / as the copy of a
`cmd = 0` descriptor. -/
theorem dequeue_commands_never_surface_witness :
    (Errval.OK = Errval.OK ∧ c9DataBuf.flags = 0) ∧
    (Errval.OK = Errval.OK ∧
     ∃ d ∈ c9IpcChan.descs, d.cmd = 0 ∧
       c9DataBuf = { rid := d.rid, offset := d.offset, length := d.length,
                     valid_data := d.valid_data, valid_length := d.valid_length,
                     flags := d.flags }) := by
  constructor
  · exact dequeue_commands_never_surface.1 2 c9DataQueue Errval.OK c9DataBuf
      (ff_dequeue 2 c9DataQueue).2.2 (by decide)
  · exact dequeue_commands_never_surface.2.1 2 c9IpcChan Errval.OK c9DataBuf
      (ipcq_dequeue 2 c9IpcChan).2.2 (by decide) (by decide) (by decide)

/-- C10: a debug-wrapper dequeue whose inner dequeue succeeds on a known
region whose free-range list is exactly one node fully containing the
returned range answers `CLEANQ_ERR_BUFFER_NOT_IN_USE`, reports the buffer,
and leaves every region's free-range list unchanged. -/
theorem debug_dequeue_owned_buffer_not_in_use {S : Type}
    (innerDeq : S → Errval × CleanqBuf × S) (q : CleanqDebugq S)
    (buf : CleanqBuf) (s2 : S) (ri : Nat) (region : MemoryList) (b : MemoryEle)
    (hdeq : innerDeq q.inner = (Errval.OK, buf, s2))
    (hfind : find_region buf.rid q.regions = some (ri, region))
    (hbufs : region.buffers = [b])
    (hin : buffer_in_bounds buf.offset buf.length b.offset b.length = true) :
    (debug_dequeue innerDeq q).1 = Errval.BUFFER_NOT_IN_USE ∧
    (debug_dequeue innerDeq q).2.2.regions.map MemoryList.buffers =
      q.regions.map MemoryList.buffers ∧
    (debug_dequeue innerDeq q).2.1 = buf := by
  have hget := find_region_getElem? hfind
  by_cases hnc : (region.not_consistent
      && decide (wadd buf.offset buf.length > region.length)) = true
  · have hres : debug_dequeue innerDeq q =
        (Errval.BUFFER_NOT_IN_USE, buf,
         { inner := s2,
           regions := q.regions.set ri
             { region with length := wadd buf.offset buf.length } }) := by
      simp only [debug_dequeue, hdeq]
      simp only [hfind, hnc]
      simp [hbufs, hin]
    rw [hres]
    exact ⟨rfl, map_set_same MemoryList.buffers q.regions ri region _ hget rfl, rfl⟩
  · have hres : debug_dequeue innerDeq q =
        (Errval.BUFFER_NOT_IN_USE, buf,
         { inner := s2, regions := q.regions.set ri region }) := by
      simp only [debug_dequeue, hdeq]
      simp only [hfind]
      rw [if_neg hnc]
      simp [hbufs, hin]
    rw [hres]
    exact ⟨rfl, map_set_same MemoryList.buffers q.regions ri region _ hget rfl, rfl⟩

/-- C10 witness: a wrapper owning all of region 1 whose loopback returns the
buffer (2048, 2048) answers `CLEANQ_ERR_BUFFER_NOT_IN_USE` with the
free-range list intact. -/
theorem debug_dequeue_owned_buffer_not_in_use_witness :
    (debug_dequeue loopback_dequeue c10State).1 = Errval.BUFFER_NOT_IN_USE ∧
    (debug_dequeue loopback_dequeue c10State).2.2.regions.map MemoryList.buffers =
      c10State.regions.map MemoryList.buffers ∧
    (debug_dequeue loopback_dequeue c10State).2.1 =
      { rid := 1, offset := 2048, length := 2048, valid_data := 0,
        valid_length := 2048, flags := 0 } :=
  debug_dequeue_owned_buffer_not_in_use loopback_dequeue c10State
    { rid := 1, offset := 2048, length := 2048, valid_data := 0,
      valid_length := 2048, flags := 0 }
    (loopback_dequeue c10State.inner).2.2 0
    { rid := 1, length := 8192, not_consistent := false,
      buffers := [{ offset := 0, length := 8192 }] }
    { offset := 0, length := 8192 }
    (by decide) (by decide) (by decide) (by decide)

end CleanQ
